import Mathlib

/-!
Shallow embedding of the ledger engine of a small-business bookkeeping
application (chart of accounts, double-entry transactions, trial balance,
general ledger, income statement, balance sheet, tax-aware compound entry
generation).

Modelling conventions:
* Money amounts are rationals (`ℚ`), read as exact decimal arithmetic.
* Dates are natural numbers, read as the timestamps the code obtains from
  parsing ISO date strings; only their ordering matters.
* JavaScript objects keyed by account id become total functions
  `String → ℚ` defaulting to zero, matching the code's zero
  initialisation and its reads of absent keys.
-/

namespace Acct

/-- Transaction side, mirroring the source's TransactionType union. -/
inductive TransactionType
  | debit
  | credit
deriving DecidableEq

/-- Account category, mirroring the source's AccountCategory union. -/
inductive AccountCategory
  | asset
  | liability
  | equity
  | income
  | expense
  | cost_of_sales
  | other_income
  | other_expense
deriving DecidableEq

/-- Mirrors the source's Transaction interface. -/
structure Transaction where
  id : String
  date : Nat
  description : String
  accountId : String
  type : TransactionType
  amount : ℚ
deriving DecidableEq

/-- Mirrors the source's Account interface. -/
structure Account where
  id : String
  name : String
  category : AccountCategory
  normalBalance : TransactionType
  beginningBalance : ℚ
deriving DecidableEq

/-- Signed contribution of a transaction to an account's balance:
tx.type === account.normalBalance ? tx.amount : -tx.amount. -/
def delta (account : Account) (tx : Transaction) : ℚ :=
  if tx.type = account.normalBalance then tx.amount else -tx.amount

/-- One step of the Reports balance fold: look up the transaction's account
with accounts.find and, when found, add the signed delta at the key
tx.accountId; unknown account ids leave the map unchanged. -/
def applyTx (accounts : List Account) (bal : String → ℚ) (tx : Transaction) :
    String → ℚ :=
  match accounts.find? (fun acc => acc.id == tx.accountId) with
  | none => bal
  | some account =>
      fun k => if k = tx.accountId then bal tx.accountId + delta account tx else bal k

/-- The Reports balance accumulator: each account id starts at zero and the
transaction list is folded with applyTx. -/
def accountBalances (accounts : List Account) (txs : List Transaction) :
    String → ℚ :=
  txs.foldl (applyTx accounts) (fun _ => 0)

/-- In a list of accounts with no duplicate ids, find by an account's own id
returns that account. -/
theorem find?_eq_self {accounts : List Account} {a : Account}
    (hnd : (accounts.map Account.id).Nodup) (ha : a ∈ accounts) :
    accounts.find? (fun acc => acc.id == a.id) = some a := by
  induction accounts with
  | nil => cases ha
  | cons b rest ih =>
      rcases List.mem_cons.mp ha with hba | har
      · subst hba
        simp [List.find?]
      · have hnd' := hnd
        simp only [List.map_cons, List.nodup_cons] at hnd'
        have hbne : b.id ≠ a.id := by
          intro h
          exact hnd'.1 (h ▸ List.mem_map_of_mem Account.id har)
        have : (b.id == a.id) = false := beq_false_of_ne hbne
        simp [List.find?, this, ih hnd'.2 har]

/-- In a list of accounts with no duplicate ids, two members sharing an id are
equal. -/
theorem eq_of_mem_of_id_eq {accounts : List Account} {a b : Account}
    (hnd : (accounts.map Account.id).Nodup) (ha : a ∈ accounts)
    (hb : b ∈ accounts) (hid : a.id = b.id) : a = b := by
  induction accounts with
  | nil => cases ha
  | cons c rest ih =>
      simp only [List.map_cons, List.nodup_cons] at hnd
      rcases List.mem_cons.mp ha with hca | har <;>
        rcases List.mem_cons.mp hb with hcb | hbr
      · exact hca.trans hcb.symm
      · exfalso
        exact hnd.1 (by rw [← hca, hid]; exact List.mem_map_of_mem Account.id hbr)
      · exfalso
        exact hnd.1 (by rw [← hcb, ← hid]; exact List.mem_map_of_mem Account.id har)
      · exact ih hnd.2 har hbr

/-- Folding transactions over any starting balance map adds, at an account's
own key, exactly the sum of the signed deltas of the transactions that
reference that account. -/
theorem foldl_applyTx_eq {accounts : List Account} {a : Account}
    (hnd : (accounts.map Account.id).Nodup) (ha : a ∈ accounts) :
    ∀ (txs : List Transaction) (bal : String → ℚ),
      (txs.foldl (applyTx accounts) bal) a.id =
        bal a.id + ((txs.filter (fun tx => tx.accountId == a.id)).map (delta a)).sum := by
  intro txs
  induction txs with
  | nil => intro bal; simp
  | cons tx rest ih =>
      intro bal
      by_cases hacc : tx.accountId = a.id
      · have hfind : accounts.find? (fun acc => acc.id == tx.accountId) = some a := by
          rw [hacc]; exact find?_eq_self hnd ha
        have hstep : (applyTx accounts bal tx) a.id = bal a.id + delta a tx := by
          unfold applyTx
          rw [hfind]
          simp [hacc]
        rw [List.foldl_cons, ih, hstep]
        simp [List.filter_cons, hacc]
        ring
      · have hstep : (applyTx accounts bal tx) a.id = bal a.id := by
          unfold applyTx
          cases accounts.find? (fun acc => acc.id == tx.accountId) with
          | none => rfl
          | some acc => simp [Ne.symm hacc]
        have hbeq : (tx.accountId == a.id) = false := beq_false_of_ne hacc
        rw [List.foldl_cons, ih, hstep]
        simp [List.filter_cons, hbeq]

/-- C1: Balance Accumulator. For every list of accounts (with the data
model's unique account ids) and every list of transactions, the computed
balance of each account equals the sum, over the transactions referencing
that account, of +amount when the transaction type equals the account's
normalBalance and -amount otherwise, starting from zero; the account's
beginningBalance is not included, and transactions whose accountId matches
no account contribute nothing and cause no error. -/
theorem balance_accumulator_signed_sum (accounts : List Account)
    (txs : List Transaction) (a : Account)
    (hnd : (accounts.map Account.id).Nodup) (ha : a ∈ accounts) :
    accountBalances accounts txs a.id =
      ((txs.filter (fun tx => tx.accountId == a.id)).map (delta a)).sum := by
  have h := foldl_applyTx_eq hnd ha txs (fun _ => 0)
  simpa [accountBalances] using h

/-- Witness for C1, on the spec's worked example: account 1-1130 with a
500,000 debit and a 200,000 credit accumulates 300,000 (the 1,000,000
beginning balance is not included). -/
theorem balance_accumulator_signed_sum_witness :
    (([Account.mk "1-1130" "Kas" .asset .debit 1000000].map Account.id).Nodup ∧
      Account.mk "1-1130" "Kas" .asset .debit 1000000 ∈
        [Account.mk "1-1130" "Kas" .asset .debit 1000000]) ∧
    accountBalances [Account.mk "1-1130" "Kas" .asset .debit 1000000]
        [Transaction.mk "t1" 20250110 "a" "1-1130" .debit 500000,
         Transaction.mk "t2" 20250115 "b" "1-1130" .credit 200000]
        (Account.mk "1-1130" "Kas" .asset .debit 1000000).id =
      (([Transaction.mk "t1" 20250110 "a" "1-1130" .debit 500000,
         Transaction.mk "t2" 20250115 "b" "1-1130" .credit 200000].filter
          (fun tx => tx.accountId == "1-1130")).map
        (delta (Account.mk "1-1130" "Kas" .asset .debit 1000000))).sum := by
  refine ⟨⟨by decide, by decide⟩, ?_⟩
  exact balance_accumulator_signed_sum _ _ _ (by decide) (by decide)

/-- Mirrors the source's LedgerSummaryData interface (one trial-balance row). -/
structure LedgerSummaryData where
  accountId : String
  accountName : String
  beginningBalance : ℚ
  totalDebit : ℚ
  totalCredit : ℚ
  endingBalance : ℚ
deriving DecidableEq

/-- Accumulator of the per-account loop in the all-accounts ledger view. -/
structure RowAcc where
  beginningBalance : ℚ
  totalDebit : ℚ
  totalCredit : ℚ
deriving DecidableEq

/-- One transaction of the per-account loop: before the fiscal-year start the
signed delta is folded into the beginning balance; otherwise the raw amount
goes to totalDebit or totalCredit according to the transaction type. -/
def rowStep (startDate : Nat) (account : Account) (s : RowAcc) (tx : Transaction) :
    RowAcc :=
  if tx.date < startDate then
    { s with beginningBalance := s.beginningBalance + delta account tx }
  else
    match tx.type with
    | .debit => { s with totalDebit := s.totalDebit + tx.amount }
    | .credit => { s with totalCredit := s.totalCredit + tx.amount }

/-- The all-accounts ledger row for one account: fold the account's
transactions with rowStep starting from the account's beginningBalance, then
set endingBalance = beginningBalance + (debit-normal ? D - C : C - D). -/
def summaryRow (startDate : Nat) (txs : List Transaction) (account : Account) :
    LedgerSummaryData :=
  let s := (txs.filter (fun tx => tx.accountId == account.id)).foldl
    (rowStep startDate account)
    { beginningBalance := account.beginningBalance, totalDebit := 0, totalCredit := 0 }
  let mutationChange :=
    if account.normalBalance = .debit then s.totalDebit - s.totalCredit
    else s.totalCredit - s.totalDebit
  { accountId := account.id
    accountName := account.name
    beginningBalance := s.beginningBalance
    totalDebit := s.totalDebit
    totalCredit := s.totalCredit
    endingBalance := s.beginningBalance + mutationChange }

/-- The inclusion filter of the all-accounts view: accounts with a non-zero
beginning balance or at least one transaction. -/
def accountsToProcess (accounts : List Account) (txs : List Transaction) :
    List Account :=
  accounts.filter (fun acc =>
    acc.beginningBalance ≠ 0 ∨ txs.any (fun tx => tx.accountId == acc.id))

/-- The all-accounts trial-balance summary: one row per included account. -/
def trialBalanceSummary (startDate : Nat) (accounts : List Account)
    (txs : List Transaction) : List LedgerSummaryData :=
  (accountsToProcess accounts txs).map (summaryRow startDate txs)

/-- Folding rowStep splits an account's transactions into a before-period
delta sum (into the beginning balance) and in-period raw debit and credit
sums. -/
theorem foldl_rowStep_eq (startDate : Nat) (account : Account) :
    ∀ (l : List Transaction) (s : RowAcc),
      (l.foldl (rowStep startDate account) s).beginningBalance =
          s.beginningBalance +
            ((l.filter (fun tx => tx.date < startDate)).map (delta account)).sum ∧
      (l.foldl (rowStep startDate account) s).totalDebit =
          s.totalDebit +
            ((l.filter (fun tx => startDate ≤ tx.date ∧ tx.type = .debit)).map
              (fun tx => tx.amount)).sum ∧
      (l.foldl (rowStep startDate account) s).totalCredit =
          s.totalCredit +
            ((l.filter (fun tx => startDate ≤ tx.date ∧ tx.type = .credit)).map
              (fun tx => tx.amount)).sum := by
  intro l
  induction l with
  | nil => intro s; simp
  | cons tx rest ih =>
      intro s
      rw [List.foldl_cons]
      obtain ⟨ihb, ihd, ihc⟩ := ih (rowStep startDate account s tx)
      by_cases hd : tx.date < startDate
      · have hle : ¬ startDate ≤ tx.date := by omega
        have hstep : rowStep startDate account s tx =
            { s with beginningBalance := s.beginningBalance + delta account tx } := by
          simp [rowStep, hd]
        rw [hstep] at ihb ihd ihc ⊢
        refine ⟨?_, ?_, ?_⟩
        · rw [ihb]; simp [List.filter_cons, hd]; ring
        · rw [ihd]; simp [List.filter_cons, hle]
        · rw [ihc]; simp [List.filter_cons, hle]
      · have hle : startDate ≤ tx.date := by omega
        cases htype : tx.type
        · have hstep : rowStep startDate account s tx =
              { s with totalDebit := s.totalDebit + tx.amount } := by
            simp [rowStep, hd, htype]
          rw [hstep] at ihb ihd ihc ⊢
          refine ⟨?_, ?_, ?_⟩
          · rw [ihb]; simp [List.filter_cons, hd]
          · rw [ihd]; simp [List.filter_cons, hle, htype]; ring
          · rw [ihc]; simp [List.filter_cons, hle, htype]
        · have hstep : rowStep startDate account s tx =
              { s with totalCredit := s.totalCredit + tx.amount } := by
            simp [rowStep, hd, htype]
          rw [hstep] at ihb ihd ihc ⊢
          refine ⟨?_, ?_, ?_⟩
          · rw [ihb]; simp [List.filter_cons, hd]
          · rw [ihd]; simp [List.filter_cons, hle, htype]
          · rw [ihc]; simp [List.filter_cons, hle, htype]; ring

/-- C2: Period Splitter. For every account and every list of transactions,
the all-accounts row folds the account's transactions dated strictly before
fiscalYearStart, sign-adjusted, into a beginningBalance seeded at
account.beginningBalance; accumulates raw amounts of transactions dated on
or after fiscalYearStart into totalDebit (debit type) and totalCredit
(credit type); and sets endingBalance = beginningBalance + (totalDebit -
totalCredit) for debit-normal accounts and beginningBalance + (totalCredit -
totalDebit) otherwise. -/
theorem period_splitter_row (startDate : Nat) (txs : List Transaction)
    (account : Account) :
    (summaryRow startDate txs account).beginningBalance =
        account.beginningBalance +
          (((txs.filter (fun tx => tx.accountId == account.id)).filter
              (fun tx => tx.date < startDate)).map (delta account)).sum ∧
    (summaryRow startDate txs account).totalDebit =
        (((txs.filter (fun tx => tx.accountId == account.id)).filter
            (fun tx => startDate ≤ tx.date ∧ tx.type = .debit)).map
          (fun tx => tx.amount)).sum ∧
    (summaryRow startDate txs account).totalCredit =
        (((txs.filter (fun tx => tx.accountId == account.id)).filter
            (fun tx => startDate ≤ tx.date ∧ tx.type = .credit)).map
          (fun tx => tx.amount)).sum ∧
    (summaryRow startDate txs account).endingBalance =
        (summaryRow startDate txs account).beginningBalance +
          (if account.normalBalance = .debit then
            (summaryRow startDate txs account).totalDebit -
              (summaryRow startDate txs account).totalCredit
          else
            (summaryRow startDate txs account).totalCredit -
              (summaryRow startDate txs account).totalDebit) := by
  obtain ⟨hb, hdeb, hcred⟩ := foldl_rowStep_eq startDate account
    (txs.filter (fun tx => tx.accountId == account.id))
    { beginningBalance := account.beginningBalance, totalDebit := 0, totalCredit := 0 }
  refine ⟨?_, ?_, ?_, ?_⟩
  · simpa [summaryRow] using hb
  · simpa [summaryRow] using hdeb
  · simpa [summaryRow] using hcred
  · simp [summaryRow]

/-- One row of the single-account running-balance ledger view. -/
structure LedgerEntry where
  tx : Transaction
  balance : ℚ
deriving DecidableEq

/-- Running-balance rows: each transaction adds its signed delta to the
running balance carried in from the previous row. -/
def runningEntries (account : Account) : ℚ → List Transaction → List LedgerEntry
  | _, [] => []
  | bal, tx :: rest =>
      { tx := tx, balance := bal + delta account tx } ::
        runningEntries account (bal + delta account tx) rest

/-- The single-account ledger view: the account's transactions sorted by
date ascending (a stable sort, as in the source), with a running balance
started at the account's beginningBalance. -/
def singleAccountLedger (account : Account) (txs : List Transaction) :
    List LedgerEntry :=
  runningEntries account account.beginningBalance
    ((txs.filter (fun tx => tx.accountId == account.id)).mergeSort
      (fun a b => a.date ≤ b.date))

/-- Balance shown after the last row of a ledger view, or the fallback when
the view has no rows. -/
def ledgerFinal (entries : List LedgerEntry) (fallback : ℚ) : ℚ :=
  match entries.getLast? with
  | some e => e.balance
  | none => fallback

/-- The final balance of a cons ledger view ignores the fallback. -/
theorem ledgerFinal_cons (e : LedgerEntry) (rs : List LedgerEntry) (d : ℚ) :
    ledgerFinal (e :: rs) d = ledgerFinal rs e.balance := by
  cases rs with
  | nil => simp [ledgerFinal]
  | cons r rs' =>
      cases hlast : (r :: rs').getLast? with
      | none => simp at hlast
      | some e2 => simp [ledgerFinal, List.getLast?_cons_cons, hlast]

/-- The final running balance equals the start balance plus the sum of all
signed deltas. -/
theorem ledgerFinal_runningEntries (account : Account) :
    ∀ (l : List Transaction) (b : ℚ),
      ledgerFinal (runningEntries account b l) b =
        b + (l.map (delta account)).sum := by
  intro l
  induction l with
  | nil => intro b; simp [runningEntries, ledgerFinal]
  | cons tx rest ih =>
      intro b
      rw [runningEntries, ledgerFinal_cons]
      simp only []
      rw [ih (b + delta account tx)]
      simp
      ring

/-- Splitting a transaction list at the fiscal-year start preserves the
total signed delta sum. -/
theorem sum_delta_date_split (startDate : Nat) (account : Account) :
    ∀ l : List Transaction,
      ((l.filter (fun tx => tx.date < startDate)).map (delta account)).sum +
        ((l.filter (fun tx => startDate ≤ tx.date)).map (delta account)).sum =
      (l.map (delta account)).sum := by
  intro l
  induction l with
  | nil => simp
  | cons tx rest ih =>
      by_cases hd : tx.date < startDate
      · have hle : ¬ startDate ≤ tx.date := by omega
        simp only [List.filter_cons, List.map_cons, List.sum_cons]
        rw [if_pos (by simpa using hd), if_neg (by simpa using hle)]
        simp only [List.map_cons, List.sum_cons]
        linarith [ih]
      · have hle : startDate ≤ tx.date := by omega
        simp only [List.filter_cons, List.map_cons, List.sum_cons]
        rw [if_neg (by simpa using hd), if_pos (by simpa using hle)]
        simp only [List.map_cons, List.sum_cons]
        linarith [ih]

/-- The signed delta sum over a list equals debit-amounts minus
credit-amounts for a debit-normal account, and the reverse for a
credit-normal account. -/
theorem sum_delta_by_type (account : Account) :
    ∀ l : List Transaction,
      (l.map (delta account)).sum =
        if account.normalBalance = .debit then
          ((l.filter (fun tx => tx.type = .debit)).map (fun tx => tx.amount)).sum -
            ((l.filter (fun tx => tx.type = .credit)).map (fun tx => tx.amount)).sum
        else
          ((l.filter (fun tx => tx.type = .credit)).map (fun tx => tx.amount)).sum -
            ((l.filter (fun tx => tx.type = .debit)).map (fun tx => tx.amount)).sum := by
  intro l
  induction l with
  | nil => simp
  | cons tx rest ih =>
      cases hnb : account.normalBalance <;> cases htype : tx.type <;>
        rw [List.map_cons, List.sum_cons, ih] <;>
        simp [List.filter_cons, htype, hnb, delta] <;> ring

/-- Filtering by a conjunction is filtering by each conjunct in turn. -/
theorem filter_and_eq (p q : Transaction → Prop) [DecidablePred p]
    [DecidablePred q] :
    ∀ l : List Transaction,
      l.filter (fun tx => p tx ∧ q tx) =
        (l.filter (fun tx => p tx)).filter (fun tx => q tx) := by
  intro l
  rw [List.filter_filter]
  apply List.filter_congr
  intro tx _
  simp [Bool.and_comm]

/-- C9: Trial-balance inclusion filter. For every list of accounts (with
the data model's unique ids) and transactions, an account appears as a row
of the all-accounts trial-balance summary if and only if its
beginningBalance is non-zero or at least one transaction references its
id. -/
theorem trial_balance_inclusion (startDate : Nat) (accounts : List Account)
    (txs : List Transaction) (a : Account)
    (hnd : (accounts.map Account.id).Nodup) (ha : a ∈ accounts) :
    (∃ row ∈ trialBalanceSummary startDate accounts txs, row.accountId = a.id) ↔
      (a.beginningBalance ≠ 0 ∨ ∃ tx ∈ txs, tx.accountId = a.id) := by
  constructor
  · rintro ⟨row, hrow, hid⟩
    simp only [trialBalanceSummary, accountsToProcess, List.mem_map,
      List.mem_filter] at hrow
    obtain ⟨b, ⟨hb_mem, hb_cond⟩, hb_row⟩ := hrow
    have hrow_id : row.accountId = b.id := by
      rw [← hb_row]; rfl
    have hab : a = b := eq_of_mem_of_id_eq hnd ha hb_mem (by rw [← hid, hrow_id])
    subst hab
    simpa [List.any_eq_true, beq_iff_eq] using hb_cond
  · intro hcond
    refine ⟨summaryRow startDate txs a, ?_, rfl⟩
    simp only [trialBalanceSummary, accountsToProcess, List.mem_map,
      List.mem_filter]
    refine ⟨a, ⟨ha, ?_⟩, rfl⟩
    simpa [List.any_eq_true, beq_iff_eq] using hcond

/-- Witness for C9: an account with zero beginning balance appears in the
summary exactly because a transaction references it. -/
theorem trial_balance_inclusion_witness :
    (([Account.mk "4-4000" "Pendapatan" .income .credit 0].map Account.id).Nodup ∧
      Account.mk "4-4000" "Pendapatan" .income .credit 0 ∈
        [Account.mk "4-4000" "Pendapatan" .income .credit 0]) ∧
    ((∃ row ∈ trialBalanceSummary 20250101
          [Account.mk "4-4000" "Pendapatan" .income .credit 0]
          [Transaction.mk "t1" 20250201 "jual" "4-4000" .credit 500000],
        row.accountId = (Account.mk "4-4000" "Pendapatan" .income .credit 0).id) ↔
      ((Account.mk "4-4000" "Pendapatan" .income .credit 0).beginningBalance ≠ 0 ∨
        ∃ tx ∈ [Transaction.mk "t1" 20250201 "jual" "4-4000" .credit 500000],
          tx.accountId = (Account.mk "4-4000" "Pendapatan" .income .credit 0).id)) := by
  refine ⟨⟨by decide, by decide⟩, ?_⟩
  exact trial_balance_inclusion _ _ _ _ (by decide) (by decide)

/-- C10: the all-accounts trial-balance endingBalance and the final running
balance of the single-account ledger view both equal
account.beginningBalance plus the sum of the sign-adjusted deltas of all of
the account's transactions, for every position of the fiscal-year
boundary. -/
theorem ledger_views_agree (startDate : Nat) (txs : List Transaction)
    (account : Account) :
    (summaryRow startDate txs account).endingBalance =
        account.beginningBalance +
          (((txs.filter (fun tx => tx.accountId == account.id)).map
            (delta account))).sum ∧
    ledgerFinal (singleAccountLedger account txs) account.beginningBalance =
        account.beginningBalance +
          (((txs.filter (fun tx => tx.accountId == account.id)).map
            (delta account))).sum := by
  constructor
  · obtain ⟨hb, hdeb, hcred⟩ := foldl_rowStep_eq startDate account
      (txs.filter (fun tx => tx.accountId == account.id))
      { beginningBalance := account.beginningBalance, totalDebit := 0, totalCredit := 0 }
    have hdeb' : (txs.filter (fun tx => tx.accountId == account.id)).filter
          (fun tx => startDate ≤ tx.date ∧ tx.type = TransactionType.debit) =
        ((txs.filter (fun tx => tx.accountId == account.id)).filter
          (fun tx => startDate ≤ tx.date)).filter
            (fun tx => tx.type = TransactionType.debit) :=
      filter_and_eq (fun tx => startDate ≤ tx.date)
        (fun tx => tx.type = TransactionType.debit) _
    have hcred' : (txs.filter (fun tx => tx.accountId == account.id)).filter
          (fun tx => startDate ≤ tx.date ∧ tx.type = TransactionType.credit) =
        ((txs.filter (fun tx => tx.accountId == account.id)).filter
          (fun tx => startDate ≤ tx.date)).filter
            (fun tx => tx.type = TransactionType.credit) :=
      filter_and_eq (fun tx => startDate ≤ tx.date)
        (fun tx => tx.type = TransactionType.credit) _
    have hdelta := sum_delta_by_type account
      ((txs.filter (fun tx => tx.accountId == account.id)).filter
        (fun tx => startDate ≤ tx.date))
    have hsplit := sum_delta_date_split startDate account
      (txs.filter (fun tx => tx.accountId == account.id))
    simp only [summaryRow]
    rw [hb, hdeb, hcred, hdeb', hcred']
    cases hnb : account.normalBalance
    · rw [hnb] at hdelta
      simp only [if_pos rfl] at hdelta ⊢
      rw [zero_add, zero_add, ← hdelta]
      linarith [hsplit]
    · rw [hnb] at hdelta
      have : (TransactionType.credit = TransactionType.debit) = False := by
        simp
      simp only [this, if_false, reduceCtorEq] at hdelta ⊢
      rw [zero_add, zero_add, ← hdelta]
      linarith [hsplit]
  · rw [singleAccountLedger, ledgerFinal_runningEntries]
    have hperm : ((txs.filter (fun tx => tx.accountId == account.id)).mergeSort
          (fun a b => a.date ≤ b.date)).Perm
        (txs.filter (fun tx => tx.accountId == account.id)) :=
      List.mergeSort_perm _ _
    rw [List.Perm.sum_eq (hperm.map (delta account))]

/-- One line item of a report section. -/
structure ReportItem where
  name : String
  amount : ℚ
deriving DecidableEq

/-- Sum of item amounts as the source computes it (a reduce from zero). -/
def sumAmounts (items : List ReportItem) : ℚ :=
  items.foldl (fun s i => s + i.amount) 0

/-- Result of the Reports component's financial-statement computation. -/
structure ReportsData where
  pendapatan : List ReportItem
  beban : List ReportItem
  labaBersih : ℚ
  aset : List ReportItem
  liabilitas : List ReportItem
  ekuitas : List ReportItem
  totalAset : ℚ
  totalLiabilitas : ℚ
  totalEkuitas : ℚ
deriving DecidableEq

/-- The Reports computation: full-history balances, income statement by
category, retained-earnings roll-forward into account 3-9999 when such an
account exists, then the balance-sheet sections and totals from the
adjusted balances. -/
def reports (accounts : List Account) (txs : List Transaction) : ReportsData :=
  let bal := accountBalances accounts txs
  let pendapatan := (accounts.filter (fun a =>
      a.category = AccountCategory.income ∨
        a.category = AccountCategory.other_income)).map
    (fun a => ReportItem.mk a.name (bal a.id))
  let beban := (accounts.filter (fun a =>
      a.category = AccountCategory.expense ∨
        a.category = AccountCategory.cost_of_sales ∨
        a.category = AccountCategory.other_expense)).map
    (fun a => ReportItem.mk a.name (bal a.id))
  let labaBersih := sumAmounts pendapatan - sumAmounts beban
  let bal2 :=
    match accounts.find? (fun a => a.id == "3-9999") with
    | some _ => fun k => if k = "3-9999" then bal "3-9999" + labaBersih else bal k
    | none => bal
  let aset := (accounts.filter (fun a => a.category = AccountCategory.asset)).map
    (fun a => ReportItem.mk a.name (bal2 a.id))
  let liabilitas := (accounts.filter (fun a =>
      a.category = AccountCategory.liability)).map
    (fun a => ReportItem.mk a.name (bal2 a.id))
  let ekuitas := (accounts.filter (fun a =>
      a.category = AccountCategory.equity)).map
    (fun a => ReportItem.mk a.name (bal2 a.id))
  { pendapatan := pendapatan
    beban := beban
    labaBersih := labaBersih
    aset := aset
    liabilitas := liabilitas
    ekuitas := ekuitas
    totalAset := sumAmounts aset
    totalLiabilitas := sumAmounts liabilitas
    totalEkuitas := sumAmounts ekuitas }

/-- The source's reduce over item amounts is the sum of the amounts. -/
theorem sumAmounts_eq_sum : ∀ items : List ReportItem,
    sumAmounts items = (items.map (fun i => i.amount)).sum := by
  have aux : ∀ (items : List ReportItem) (s : ℚ),
      items.foldl (fun s i => s + i.amount) s =
        s + (items.map (fun i => i.amount)).sum := by
    intro items
    induction items with
    | nil => intro s; simp
    | cons i rest ih =>
        intro s
        rw [List.foldl_cons, ih]
        simp
        ring
  intro items
  rw [sumAmounts, aux]
  simp

/-- C4: Income statement classification. For every list of accounts and
transactions, the revenue items are exactly the accounts with category
income or other_income, the expense items exactly those with category
expense, cost_of_sales or other_expense, each carrying its full-history
accumulated balance, and netIncome equals the sum of revenue amounts minus
the sum of expense amounts. -/
theorem income_statement_classification (accounts : List Account)
    (txs : List Transaction) :
    (reports accounts txs).pendapatan =
        (accounts.filter (fun a =>
            a.category = AccountCategory.income ∨
              a.category = AccountCategory.other_income)).map
          (fun a => ReportItem.mk a.name (accountBalances accounts txs a.id)) ∧
    (reports accounts txs).beban =
        (accounts.filter (fun a =>
            a.category = AccountCategory.expense ∨
              a.category = AccountCategory.cost_of_sales ∨
              a.category = AccountCategory.other_expense)).map
          (fun a => ReportItem.mk a.name (accountBalances accounts txs a.id)) ∧
    (reports accounts txs).labaBersih =
        ((reports accounts txs).pendapatan.map (fun i => i.amount)).sum -
          ((reports accounts txs).beban.map (fun i => i.amount)).sum := by
  refine ⟨rfl, rfl, ?_⟩
  simp only [reports, sumAmounts_eq_sum]

/-- C5: Retained-earnings roll-forward. When an account with the fixed
conventional id 3-9999 exists, each equity item's balance is the
accumulated balance plus netIncome exactly at that id, applied before the
equity total is computed; when no such account exists, every equity
balance is used unchanged and no error is raised. -/
theorem retained_earnings_rollforward (accounts : List Account)
    (txs : List Transaction) :
    ((∃ a ∈ accounts, a.id = "3-9999") →
      (reports accounts txs).ekuitas =
        (accounts.filter (fun a => a.category = AccountCategory.equity)).map
          (fun a => ReportItem.mk a.name
            (accountBalances accounts txs a.id +
              (if a.id = "3-9999" then (reports accounts txs).labaBersih else 0))) ∧
      (reports accounts txs).totalEkuitas =
        ((reports accounts txs).ekuitas.map (fun i => i.amount)).sum) ∧
    ((¬ ∃ a ∈ accounts, a.id = "3-9999") →
      (reports accounts txs).ekuitas =
        (accounts.filter (fun a => a.category = AccountCategory.equity)).map
          (fun a => ReportItem.mk a.name (accountBalances accounts txs a.id)) ∧
      (reports accounts txs).totalEkuitas =
        ((reports accounts txs).ekuitas.map (fun i => i.amount)).sum) := by
  cases hfind : accounts.find? (fun a => a.id == "3-9999") with
  | some b =>
      constructor
      · intro _
        constructor
        · show (reports accounts txs).ekuitas = _
          simp only [reports, hfind]
          apply List.map_congr_left
          intro a _
          by_cases hid : a.id = "3-9999"
          · simp [hid]
          · simp [hid]
        · simp only [reports, hfind, sumAmounts_eq_sum]
      · intro hno
        exfalso
        apply hno
        refine ⟨b, List.mem_of_find?_eq_some hfind, ?_⟩
        have := List.find?_some hfind
        simpa using this
  | none =>
      constructor
      · intro hyes
        exfalso
        obtain ⟨a, ha, hid⟩ := hyes
        have := List.find?_eq_none.mp hfind a ha
        simp [hid] at this
      · intro _
        constructor
        · simp only [reports, hfind]
        · simp only [reports, hfind, sumAmounts_eq_sum]

/-- Witness for C5: with an equity retained-earnings account 3-9999, an
income account and one 500,000 credit, the equity item carries the
accumulated balance plus the 500,000 net income. -/
theorem retained_earnings_rollforward_witness :
    (∃ a ∈ [Account.mk "3-9999" "Laba Ditahan" .equity .credit 0,
        Account.mk "4-4000" "Pendapatan" .income .credit 0], a.id = "3-9999") ∧
    (reports
        [Account.mk "3-9999" "Laba Ditahan" .equity .credit 0,
         Account.mk "4-4000" "Pendapatan" .income .credit 0]
        [Transaction.mk "t1" 20250201 "jual" "4-4000" .credit 500000]).ekuitas =
      ([Account.mk "3-9999" "Laba Ditahan" .equity .credit 0,
        Account.mk "4-4000" "Pendapatan" .income .credit 0].filter
          (fun a => a.category = AccountCategory.equity)).map
        (fun a => ReportItem.mk a.name
          (accountBalances
              [Account.mk "3-9999" "Laba Ditahan" .equity .credit 0,
               Account.mk "4-4000" "Pendapatan" .income .credit 0]
              [Transaction.mk "t1" 20250201 "jual" "4-4000" .credit 500000] a.id +
            (if a.id = "3-9999" then
              (reports
                  [Account.mk "3-9999" "Laba Ditahan" .equity .credit 0,
                   Account.mk "4-4000" "Pendapatan" .income .credit 0]
                  [Transaction.mk "t1" 20250201 "jual" "4-4000" .credit 500000]).labaBersih
            else 0))) := by
  refine ⟨⟨Account.mk "3-9999" "Laba Ditahan" .equity .credit 0, by decide, rfl⟩, ?_⟩
  exact ((retained_earnings_rollforward _ _).1
    ⟨Account.mk "3-9999" "Laba Ditahan" .equity .credit 0, by decide, rfl⟩).1

/-- One manual journal line as entered in the transaction modal. -/
structure EntryLine where
  accountId : String
  type : TransactionType
  amount : ℚ
deriving DecidableEq

/-- A transaction to be inserted (no id assigned yet). -/
structure NewTransaction where
  date : Nat
  description : String
  accountId : String
  type : TransactionType
  amount : ℚ
deriving DecidableEq

/-- Outcome of the transaction modal's submit handler. -/
inductive SubmitResult
  | validationError (msg : String)
  | saved (entries : List NewTransaction)
deriving DecidableEq

/-- Total of the debit lines, as the source computes it (filter then reduce
from zero). -/
def totalDebitOf (entries : List EntryLine) : ℚ :=
  (entries.filter (fun e => e.type = TransactionType.debit)).foldl
    (fun s e => s + e.amount) 0

/-- Total of the credit lines, as the source computes it. -/
def totalCreditOf (entries : List EntryLine) : ℚ :=
  (entries.filter (fun e => e.type = TransactionType.credit)).foldl
    (fun s e => s + e.amount) 0

/-- The multi-line journal submit path: reject when the debit and credit
totals differ by more than 0.01 or the debit total is zero; otherwise
complete each line with the common description and date and submit. -/
def handleSubmit (entries : List EntryLine) (commonDesc : String)
    (commonDate : Nat) : SubmitResult :=
  if |totalDebitOf entries - totalCreditOf entries| > 1/100 ∨
      totalDebitOf entries = 0 then
    SubmitResult.validationError
      "Total Debit dan Kredit harus seimbang dan tidak boleh nol!"
  else
    SubmitResult.saved (entries.map (fun e =>
      NewTransaction.mk commonDate commonDesc e.accountId e.type e.amount))

/-- C3 counterexample: a pair of lines whose debit and credit totals are
exactly equal (both zero) is nevertheless rejected by the submit handler,
because the handler additionally requires a non-zero debit total. -/
theorem balanced_zero_entry_rejected :
    totalDebitOf [EntryLine.mk "1-1130" .debit 0, EntryLine.mk "4-4000" .credit 0] =
      totalCreditOf [EntryLine.mk "1-1130" .debit 0, EntryLine.mk "4-4000" .credit 0] ∧
    handleSubmit [EntryLine.mk "1-1130" .debit 0, EntryLine.mk "4-4000" .credit 0]
        "jurnal" 20250101 =
      SubmitResult.validationError
        "Total Debit dan Kredit harus seimbang dan tidak boleh nol!" := by
  constructor
  · simp [totalDebitOf, totalCreditOf, List.filter_cons]
  · have hz : totalDebitOf
        [EntryLine.mk "1-1130" .debit 0, EntryLine.mk "4-4000" .credit 0] = 0 := by
      simp [totalDebitOf, List.filter_cons]
    rw [handleSubmit, if_pos (Or.inr hz)]

/-- C3 (amended): a set of entry lines whose debit total equals its credit
total and is non-zero is submitted with each line completed by the common
description and date; a set whose totals differ by more than 0.01, or
whose debit total is zero, is rejected with a validation error and nothing
is committed. -/
theorem manual_entry_validation (entries : List EntryLine) (desc : String)
    (date : Nat) :
    (totalDebitOf entries = totalCreditOf entries ∧ totalDebitOf entries ≠ 0 →
      handleSubmit entries desc date =
        SubmitResult.saved (entries.map (fun e =>
          NewTransaction.mk date desc e.accountId e.type e.amount))) ∧
    (|totalDebitOf entries - totalCreditOf entries| > 1/100 ∨
        totalDebitOf entries = 0 →
      handleSubmit entries desc date =
        SubmitResult.validationError
          "Total Debit dan Kredit harus seimbang dan tidak boleh nol!") := by
  constructor
  · rintro ⟨heq, hz⟩
    have hcond : ¬ (|totalDebitOf entries - totalCreditOf entries| > 1/100 ∨
        totalDebitOf entries = 0) := by
      push_neg
      refine ⟨?_, hz⟩
      rw [heq]
      simp
    rw [handleSubmit, if_neg hcond]
  · intro hcond
    rw [handleSubmit, if_pos hcond]

/-- Witness for C3 (amended): a balanced non-zero debit/credit pair is
submitted. -/
theorem manual_entry_validation_witness :
    (totalDebitOf [EntryLine.mk "1-1130" .debit 100, EntryLine.mk "4-4000" .credit 100] =
        totalCreditOf [EntryLine.mk "1-1130" .debit 100, EntryLine.mk "4-4000" .credit 100] ∧
      totalDebitOf [EntryLine.mk "1-1130" .debit 100, EntryLine.mk "4-4000" .credit 100] ≠ 0) ∧
    handleSubmit [EntryLine.mk "1-1130" .debit 100, EntryLine.mk "4-4000" .credit 100]
        "jurnal" 20250101 =
      SubmitResult.saved
        ([EntryLine.mk "1-1130" .debit 100, EntryLine.mk "4-4000" .credit 100].map (fun e =>
          NewTransaction.mk 20250101 "jurnal" e.accountId e.type e.amount)) := by
  have h1 : totalDebitOf [EntryLine.mk "1-1130" .debit 100, EntryLine.mk "4-4000" .credit 100] =
      totalCreditOf [EntryLine.mk "1-1130" .debit 100, EntryLine.mk "4-4000" .credit 100] := by
    simp [totalDebitOf, totalCreditOf, List.filter_cons]
  have h2 : totalDebitOf [EntryLine.mk "1-1130" .debit 100, EntryLine.mk "4-4000" .credit 100] ≠ 0 := by
    simp [totalDebitOf, List.filter_cons]
  exact ⟨⟨h1, h2⟩, (manual_entry_validation _ _ _).1 ⟨h1, h2⟩⟩

/-- PPN (output tax) rate, 11 percent. -/
def PPN_RATE : ℚ := 11/100

/-- PPh 23 (withholding) rate, 2 percent. -/
def PPH23_RATE : ℚ := 2/100

/-- Compound entry generation of the simplified transaction form for a
primary account of the given category. An income entry debits the fixed
cash-in/receivable account 1-1200 (gross of PPN when kenaPpn is set),
credits the income account, and when kenaPpn is set also credits the PPN
payable account 2-1250; an expense entry debits the expense account,
credits the fixed cash account 1-1130 (net of PPh 23 when potongPph23 is
set), and when potongPph23 is set also credits the PPh 23 payable account
2-1260; any other category yields no lines on this path. -/
def compoundEntries (category : AccountCategory) (accountId : String)
    (kenaPpn potongPph23 : Bool) (baseAmount : ℚ) (desc : String)
    (date : Nat) : List NewTransaction :=
  if category = AccountCategory.income then
    let ppnAmount := if kenaPpn then baseAmount * PPN_RATE else 0
    [NewTransaction.mk date desc "1-1200" .debit (baseAmount + ppnAmount),
     NewTransaction.mk date desc accountId .credit baseAmount] ++
      (if kenaPpn then
        [NewTransaction.mk date ("PPN atas " ++ desc) "2-1250" .credit ppnAmount]
      else [])
  else if category = AccountCategory.expense then
    let pph23Amount := if potongPph23 then baseAmount * PPH23_RATE else 0
    [NewTransaction.mk date desc accountId .debit baseAmount,
     NewTransaction.mk date ("Kas untuk " ++ desc) "1-1130" .credit
        (baseAmount - pph23Amount)] ++
      (if potongPph23 then
        [NewTransaction.mk date ("PPh 23 atas " ++ desc) "2-1260" .credit pph23Amount]
      else [])
  else []

/-- C6: Compound entry generation for income. For an income account the
generated lines are a debit to the fixed cash-in account 1-1200 for
amount*(1+0.11) when kenaPpn is set and for amount otherwise, a credit to
the income account for amount, and exactly when kenaPpn is set an
additional credit to the PPN payable account 2-1250 for amount*0.11. -/
theorem compound_income_entry (category : AccountCategory) (accountId : String)
    (kenaPpn potongPph23 : Bool) (baseAmount : ℚ) (desc : String) (date : Nat)
    (hcat : category = AccountCategory.income) :
    compoundEntries category accountId kenaPpn potongPph23 baseAmount desc date =
      [NewTransaction.mk date desc "1-1200" .debit
          (if kenaPpn then baseAmount * (1 + PPN_RATE) else baseAmount),
       NewTransaction.mk date desc accountId .credit baseAmount] ++
        (if kenaPpn then
          [NewTransaction.mk date ("PPN atas " ++ desc) "2-1250" .credit
            (baseAmount * PPN_RATE)]
        else []) := by
  subst hcat
  cases kenaPpn
  · simp [compoundEntries]
  · simp [compoundEntries]
    ring

/-- Witness for C6, on the spec's worked example: income amount 1,000,000
with PPN yields a 1,110,000 debit, a 1,000,000 credit and a 110,000 PPN
credit. -/
theorem compound_income_entry_witness :
    AccountCategory.income = AccountCategory.income ∧
    compoundEntries AccountCategory.income "4-4000" true false 1000000 "jual" 20250101 =
      [NewTransaction.mk 20250101 "jual" "1-1200" .debit 1110000,
       NewTransaction.mk 20250101 "jual" "4-4000" .credit 1000000,
       NewTransaction.mk 20250101 "PPN atas jual" "2-1250" .credit 110000] := by
  refine ⟨rfl, ?_⟩
  have h := compound_income_entry AccountCategory.income "4-4000" true false
    1000000 "jual" 20250101 rfl
  rw [h]
  norm_num [PPN_RATE]
  rfl

/-- Debit total of a generated line set. -/
def newTxDebitTotal (l : List NewTransaction) : ℚ :=
  ((l.filter (fun t => t.type = TransactionType.debit)).map (fun t => t.amount)).sum

/-- Credit total of a generated line set. -/
def newTxCreditTotal (l : List NewTransaction) : ℚ :=
  ((l.filter (fun t => t.type = TransactionType.credit)).map (fun t => t.amount)).sum

/-- C7: Compound entries are balanced. For every non-negative amount, every
combination of the kenaPpn and potongPph23 flags, and a target category of
income or expense, the generated line set has equal debit and credit
totals. -/
theorem compound_entries_balanced (category : AccountCategory)
    (accountId : String) (kenaPpn potongPph23 : Bool) (baseAmount : ℚ)
    (desc : String) (date : Nat)
    (hcat : category = AccountCategory.income ∨
      category = AccountCategory.expense)
    (hnn : 0 ≤ baseAmount) :
    newTxDebitTotal
        (compoundEntries category accountId kenaPpn potongPph23 baseAmount desc date) =
      newTxCreditTotal
        (compoundEntries category accountId kenaPpn potongPph23 baseAmount desc date) := by
  rcases hcat with h | h <;> subst h <;> cases kenaPpn <;> cases potongPph23 <;>
    simp [compoundEntries, newTxDebitTotal, newTxCreditTotal, List.filter_cons]

/-- Witness for C7: an expense of 1,000,000 with PPh 23 withholding
produces a balanced line set. -/
theorem compound_entries_balanced_witness :
    ((AccountCategory.expense = AccountCategory.income ∨
        AccountCategory.expense = AccountCategory.expense) ∧
      (0 : ℚ) ≤ 1000000) ∧
    newTxDebitTotal
        (compoundEntries AccountCategory.expense "6-6100" false true 1000000 "jasa" 20250101) =
      newTxCreditTotal
        (compoundEntries AccountCategory.expense "6-6100" false true 1000000 "jasa" 20250101) := by
  refine ⟨⟨Or.inr rfl, by norm_num⟩, ?_⟩
  exact compound_entries_balanced _ _ _ _ _ _ _ (Or.inr rfl) (by norm_num)

/-- The debit-normal categories listed by the account modal. -/
def debitCategories : List AccountCategory :=
  [AccountCategory.asset, AccountCategory.cost_of_sales,
   AccountCategory.expense, AccountCategory.other_expense]

/-- Normal-balance derivation of the account modal: debit when the
category is one of debitCategories, credit otherwise. -/
def normalBalanceFor (category : AccountCategory) : TransactionType :=
  if category ∈ debitCategories then TransactionType.debit
  else TransactionType.credit

/-- C8: Normal-balance derivation. Accounts with category asset,
cost_of_sales, expense or other_expense derive normalBalance debit; the
remaining categories (liability, equity, income, other_income) derive
credit. -/
theorem normal_balance_by_category (category : AccountCategory) :
    ((category = AccountCategory.asset ∨
        category = AccountCategory.cost_of_sales ∨
        category = AccountCategory.expense ∨
        category = AccountCategory.other_expense) →
      normalBalanceFor category = TransactionType.debit) ∧
    ((category = AccountCategory.liability ∨
        category = AccountCategory.equity ∨
        category = AccountCategory.income ∨
        category = AccountCategory.other_income) →
      normalBalanceFor category = TransactionType.credit) := by
  cases category <;> simp [normalBalanceFor, debitCategories]

/-- Witness for C8: an asset account derives a debit normal balance. -/
theorem normal_balance_by_category_witness :
    (AccountCategory.asset = AccountCategory.asset ∨
      AccountCategory.asset = AccountCategory.cost_of_sales ∨
      AccountCategory.asset = AccountCategory.expense ∨
      AccountCategory.asset = AccountCategory.other_expense) ∧
    normalBalanceFor AccountCategory.asset = TransactionType.debit := by
  exact ⟨Or.inl rfl, (normal_balance_by_category AccountCategory.asset).1 (Or.inl rfl)⟩

end Acct
